import Mathlib

set_option maxRecDepth 100000

/-!
Shallow embedding of `tennis_smart_model.py` (the hierarchical Monte Carlo
tennis match simulator, the player form estimator, the head-to-head edge and
the serve probability derivation), together with theorems settling the
specification claims about it.

Python floats are modelled as rationals (`Rat`), dates as whole days (`Int`),
the global random stream `random.random()` as an explicit `Nat → Rat` stream
with a threaded index, and the unbounded `while` loops of the simulator as
fuel-indexed recursions returning `none` when the fuel runs out.  The
simulator functions additionally return the internal loop state at exit
(final point, game and set counters, the sequence of servers) so that the
properties of the state machine can be stated; these are pure observations of
variables that exist in the source.
-/

/-- A random draw stream: draw number `n` of `random.random()`. -/
def Draws : Type := Nat → Rat

/-- One regular game (the inner `while True` loop of `simulate_match`,
source lines 317-334).  Scores `a`, `b` are `p1_pts`, `p2_pts`; returns the
final scores and the next unused draw index.  The two inner conditionals
mirror the source: both outcomes of `is_p1_serving` credit the same player. -/
def simGame (p1p p2p : Rat) (isP1 : Bool) (d : Draws) :
    Nat → Nat → Nat → Nat → Option (Nat × Nat × Nat)
  | 0, idx, a, b =>
    if a ≥ 4 ∧ a ≥ b + 2 then some (a, b, idx)
    else if b ≥ 4 ∧ b ≥ a + 2 then some (a, b, idx)
    else none
  | fuel' + 1, idx, a, b =>
    if a ≥ 4 ∧ a ≥ b + 2 then some (a, b, idx)
    else if b ≥ 4 ∧ b ≥ a + 2 then some (a, b, idx)
    else
      let prob := if isP1 then p1p else 1 - p2p
      if d idx < prob then
        (if isP1 then simGame p1p p2p isP1 d fuel' (idx + 1) (a + 1) b
         else simGame p1p p2p isP1 d fuel' (idx + 1) (a + 1) b)
      else
        (if isP1 then simGame p1p p2p isP1 d fuel' (idx + 1) a (b + 1)
         else simGame p1p p2p isP1 d fuel' (idx + 1) a (b + 1))

/-- The tie-break point crediting of source lines 298-303: on a sampled win
the point goes to `p1_tb` in both server branches, on a sampled loss to
`p2_tb` in both server branches. -/
def tbCredit (srv won : Bool) (t1 t2 : Nat) : Nat × Nat :=
  if won then (if srv then (t1 + 1, t2) else (t1 + 1, t2))
  else (if srv then (t1, t2 + 1) else (t1, t2 + 1))

/-- The tie-break loop (source lines 287-307).  Returns the winner flag, the
final tie-break scores, the next draw index, and the sequence of server flags
(`server_is_p1`) under which each point's probability was sampled. -/
def simTB (p1p p2p : Rat) (d : Draws) :
    Nat → Nat → Nat → Nat → Bool → Option (Bool × Nat × Nat × Nat × List Bool)
  | 0, idx, t1, t2, _ =>
    if t1 ≥ 7 ∧ t1 ≥ t2 + 2 then some (true, t1, t2, idx, [])
    else if t2 ≥ 7 ∧ t2 ≥ t1 + 2 then some (false, t1, t2, idx, [])
    else none
  | fuel' + 1, idx, t1, t2, srv =>
    if t1 ≥ 7 ∧ t1 ≥ t2 + 2 then some (true, t1, t2, idx, [])
    else if t2 ≥ 7 ∧ t2 ≥ t1 + 2 then some (false, t1, t2, idx, [])
    else
      let prob := if srv then p1p else 1 - p2p
      let nxt := tbCredit srv (decide (d idx < prob)) t1 t2
      let srv' := if (nxt.1 + nxt.2) % 2 ≠ 0 then !srv else srv
      match simTB p1p p2p d fuel' (idx + 1) nxt.1 nxt.2 srv' with
      | none => none
      | some (w, x, y, i, L) => some (w, x, y, i, srv :: L)

/-- One set (the `while True` loop of source lines 275-334).  Returns the
winner flag, the final game scores `p1_games`, `p2_games`, the next draw
index, the list of server flags of the regular games played (in order), and
the final tie-break scores when a tie-break was played. -/
def simSet (p1p p2p : Rat) (d : Draws) :
    Nat → Nat → Nat → Nat →
    Option (Bool × Nat × Nat × Nat × List Bool × Option (Nat × Nat))
  | 0, idx, g1, g2 =>
    if (g1 ≥ 6 ∧ g1 ≥ g2 + 2) ∨ g1 = 7 then some (true, g1, g2, idx, [], none)
    else if (g2 ≥ 6 ∧ g2 ≥ g1 + 2) ∨ g2 = 7 then some (false, g1, g2, idx, [], none)
    else none
  | fuel' + 1, idx, g1, g2 =>
    if (g1 ≥ 6 ∧ g1 ≥ g2 + 2) ∨ g1 = 7 then some (true, g1, g2, idx, [], none)
    else if (g2 ≥ 6 ∧ g2 ≥ g1 + 2) ∨ g2 = 7 then some (false, g1, g2, idx, [], none)
    else
      if g1 = 6 ∧ g2 = 6 then
        match simTB p1p p2p d fuel' idx 0 0 true with
        | none => none
        | some (w, t1, t2, idx', _) =>
          match (if w then simSet p1p p2p d fuel' idx' 7 g2
                 else simSet p1p p2p d fuel' idx' g1 7) with
          | none => none
          | some (w2, x, y, i, L, _) => some (w2, x, y, i, L, some (t1, t2))
      else
        let isP1 := (g1 + g2) % 2 == 0
        match simGame p1p p2p isP1 d fuel' idx 0 0 with
        | none => none
        | some (a, b, idx') =>
          match (if a ≥ 4 ∧ a ≥ b + 2 then simSet p1p p2p d fuel' idx' (g1 + 1) g2
                 else simSet p1p p2p d fuel' idx' g1 (g2 + 1)) with
          | none => none
          | some (w2, x, y, i, L, tb) => some (w2, x, y, i, isP1 :: L, tb)

/-- One full match (the `while p1_sets < sets_to_win and ...` loop of source
lines 270-334 plus the final winner test of line 336).  Returns whether
`p1_sets == sets_to_win` at exit, the final set counters and next index. -/
def simOne (p1p p2p : Rat) (stw : Nat) (d : Draws) :
    Nat → Nat → Nat → Nat → Option (Bool × Nat × Nat × Nat)
  | 0, idx, s1, s2 =>
    if s1 < stw ∧ s2 < stw then none
    else some (s1 == stw, s1, s2, idx)
  | fuel' + 1, idx, s1, s2 =>
    if s1 < stw ∧ s2 < stw then
      match simSet p1p p2p d fuel' idx 0 0 with
      | none => none
      | some (w, _, _, idx', _, _) =>
        if w then simOne p1p p2p stw d fuel' idx' (s1 + 1) s2
        else simOne p1p p2p stw d fuel' idx' s1 (s2 + 1)
    else some (s1 == stw, s1, s2, idx)

/-- Source line 268: `sets_to_win = 2 if best_of == 3 else 3`. -/
def setsToWin (best_of : Nat) : Nat := if best_of == 3 then 2 else 3

/-- The `for _ in range(iterations)` loop of source line 265, counting
`p1_match_wins`; the draw index is threaded through all iterations. -/
def simIters (p1p p2p : Rat) (stw : Nat) (d : Draws) (fuel : Nat) :
    Nat → Nat → Nat → Option (Nat × Nat)
  | 0, idx, wins => some (wins, idx)
  | n + 1, idx, wins =>
    match simOne p1p p2p stw d fuel idx 0 0 with
    | none => none
    | some (w, _, _, idx') =>
      simIters p1p p2p stw d fuel n idx' (if w then wins + 1 else wins)

/-- Failure modes of the embedded simulator: the unguarded final division of
source line 339 raises on `iterations = 0`; `outOfFuel` is the embedding
artifact for a playout longer than the supplied fuel. -/
inductive SimError : Type
  | zeroDiv : SimError
  | outOfFuel : SimError
deriving DecidableEq

/-- `simulate_match` (source lines 259-339): run `iterations` playouts and
return `p1_match_wins / iterations`. -/
def simulate_match (p1p p2p : Rat) (iterations best_of : Nat) (d : Draws)
    (fuel : Nat) : Except SimError Rat :=
  match simIters p1p p2p (setsToWin best_of) d fuel iterations 0 0 with
  | none => .error .outOfFuel
  | some (wins, _) =>
    if iterations = 0 then .error .zeroDiv
    else .ok ((wins : Rat) / (iterations : Rat))

/-- The all-zero draw stream (every sampled uniform is 0, so the server-side
probability wins every point whenever it is positive). -/
def dzero : Draws := fun _ => 0

/-- The alternating adversarial draw stream: even draws are 0, odd draws
3/4.  Every value lies in [0, 1), the range of `random.random()`, so the
stream is a realizable sequence of uniform draws. -/
def deuceD : Draws := fun i => if i % 2 == 0 then (0 : Rat) else 3/4

/-- The server pattern generated by the tie-break recurrence: starting from
cumulative point total `total` and server flag `srv`, the flag flips exactly
after points at which the new cumulative total is odd. -/
def tbPat (total : Nat) (srv : Bool) : Nat → List Bool
  | 0 => []
  | k + 1 => srv :: tbPat (total + 1) (if (total + 1) % 2 ≠ 0 then !srv else srv) k

/-- A row of the historical match table (the columns of the TML data that
`calculate_player_stats` and `get_h2h_edge` read).  Dates are whole days;
point counts that can be missing (`NaN` in pandas) are `Option`. -/
structure MatchRow where
  tourney_date : Int
  surface : String
  winner_name : String
  loser_name : String
  w_svpt : Option Int
  w_1stWon : Option Int
  w_2ndWon : Option Int
  l_svpt : Option Int
  l_1stWon : Option Int
  l_2ndWon : Option Int
  minutes : Option Int
deriving DecidableEq

/-- Substring containment, the embedding of pandas `.str.contains` (and of
the Python `in` operator on strings). -/
def containsSub (hay needle : String) : Bool :=
  needle.isEmpty || (hay.splitOn needle).length > 1

/-- `player_name.split()[-1].lower()` (source lines 156, 234-235). -/
def lastWordLower (name : String) : String :=
  (((name.splitOn " ").filter (fun w => !w.isEmpty)).getLastD "").toLower

/-- The 52-week trailing window test `tourney_date >= one_year_ago`
(source lines 152, 159, 233, 238) with `as_of` made explicit. -/
def inWindow (asOf : Int) (r : MatchRow) : Bool :=
  asOf - 364 ≤ r.tourney_date

/-- The loose player match of source lines 161-162: the lowercased surname
occurs as a substring of the winner or the loser name. -/
def matchesPlayer (pLast : String) (r : MatchRow) : Bool :=
  containsSub r.winner_name.toLower pLast || containsSub r.loser_name.toLower pLast

/-- The surface-restricted relevant subset (source lines 158-163). -/
def relevantOnSurface (pLast surface : String) (asOf : Int) (h : List MatchRow) :
    List MatchRow :=
  h.filter (fun r =>
    inWindow asOf r && (r.surface.toLower == surface.toLower) && matchesPlayer pLast r)

/-- The all-surfaces fallback subset (source lines 167-171). -/
def relevantAnySurface (pLast : String) (asOf : Int) (h : List MatchRow) :
    List MatchRow :=
  h.filter (fun r => inWindow asOf r && matchesPlayer pLast r)

/-- The subset the aggregation loop actually runs over: the surface subset,
or the all-surface subset when the former is empty (source lines 165-171). -/
def chosenRelevant (pLast surface : String) (asOf : Int) (h : List MatchRow) :
    List MatchRow :=
  let rel := relevantOnSurface pLast surface asOf h
  if rel.isEmpty then relevantAnySurface pLast asOf h else rel

/-- The accumulator variables of the aggregation loop (source lines 177-181). -/
structure StatsAcc where
  serve_points_won : Int
  serve_points_total : Int
  return_points_won : Int
  return_points_total : Int
  minutes_played_recent : Int
deriving DecidableEq

/-- The initial accumulator (all counters zero). -/
def accZero : StatsAcc := ⟨0, 0, 0, 0, 0⟩

/-- Missing-propagating addition, the embedding of `NaN` arithmetic: the
Python sums `w_1stWon + w_2ndWon` are `NaN` when a summand is. -/
def optAdd : Option Int → Option Int → Option Int
  | some a, some b => some (a + b)
  | _, _ => none

/-- Missing-propagating subtraction (for `l_svpt - (l_1stWon + l_2ndWon)`). -/
def optSub : Option Int → Option Int → Option Int
  | some a, some b => some (a - b)
  | _, _ => none

/-- Fatigue accumulation for one row (source lines 199-201 and 209-211):
minutes are added when the row is within 7 days of now, with 90 substituted
for a missing duration. -/
def addFatigue (today : Int) (acc : StatsAcc) (r : MatchRow) : StatsAcc :=
  if today - r.tourney_date ≤ 7 then
    { acc with minutes_played_recent := acc.minutes_played_recent + r.minutes.getD 90 }
  else acc

/-- Serve accumulation for one row (source lines 213-215): both fields must
be present (`pd.notna`), otherwise the row is skipped. -/
def addServe (acc : StatsAcc) (sp sw : Option Int) : StatsAcc :=
  match sp, sw with
  | some p, some w =>
    { acc with serve_points_total := acc.serve_points_total + p
               serve_points_won := acc.serve_points_won + w }
  | _, _ => acc

/-- Return accumulation for one row (source lines 217-219). -/
def addReturn (acc : StatsAcc) (rp rw : Option Int) : StatsAcc :=
  match rp, rw with
  | some p, some w =>
    { acc with return_points_total := acc.return_points_total + p
               return_points_won := acc.return_points_won + w }
  | _, _ => acc

/-- The body of the `for _, row in relevant_matches.iterrows()` loop
(source lines 185-219). -/
def statStep (pLast : String) (today : Int) (acc : StatsAcc) (r : MatchRow) : StatsAcc :=
  let is_winner := containsSub r.winner_name.toLower pLast
  let s_played := if is_winner then r.w_svpt else r.l_svpt
  let s_won := if is_winner then optAdd r.w_1stWon r.w_2ndWon
               else optAdd r.l_1stWon r.l_2ndWon
  let r_played := if is_winner then r.l_svpt else r.w_svpt
  let r_won := if is_winner then optSub r.l_svpt (optAdd r.l_1stWon r.l_2ndWon)
               else optSub r.w_svpt (optAdd r.w_1stWon r.w_2ndWon)
  addReturn (addServe (addFatigue today acc r) s_played s_won) r_played r_won

/-- The final accumulator after the aggregation loop. -/
def statsAcc (pLast : String) (today : Int) (rows : List MatchRow) : StatsAcc :=
  rows.foldl (statStep pLast today) accZero

/-- The result dict of `calculate_player_stats` (source lines 225-229). -/
structure PlayerStats where
  serve_pct : Rat
  return_pct : Rat
  recent_minutes : Int
deriving DecidableEq

/-- The final ratios (source lines 222-223): totals that are not positive
fall back to the tour baselines 0.64 and 0.36. -/
def aggregateStats (pLast : String) (today : Int) (rows : List MatchRow) : PlayerStats :=
  let acc := statsAcc pLast today rows
  { serve_pct := if acc.serve_points_total > 0 then
      (acc.serve_points_won : Rat) / (acc.serve_points_total : Rat) else 16/25
    return_pct := if acc.return_points_total > 0 then
      (acc.return_points_won : Rat) / (acc.return_points_total : Rat) else 9/25
    recent_minutes := acc.minutes_played_recent }

/-- `calculate_player_stats` (source lines 145-229): filter to the trailing
52 weeks on the surface, fall back to all surfaces, return `None` when both
subsets are empty, else aggregate. -/
def calculate_player_stats (player_name surface : String) (asOf : Int)
    (h : List MatchRow) : Option PlayerStats :=
  let pLast := lastWordLower player_name
  let rel := chosenRelevant pLast surface asOf h
  if rel.isEmpty then none
  else some (aggregateStats pLast asOf rel)

/-- The 7-day fatigue total over a list of rows, the per-row contribution
being the duration with 90 substituted when missing. -/
def fatigueSum (today : Int) (rows : List MatchRow) : Int :=
  (rows.map (fun r => if today - r.tourney_date ≤ 7 then r.minutes.getD 90 else 0)).sum

/-- The head-to-head subset of rows (source lines 237-243): both surnames
appear, one as winner and one as loser, within the trailing window. -/
def h2hMatches (p1_last p2_last : String) (asOf : Int) (h : List MatchRow) :
    List MatchRow :=
  h.filter (fun r => inWindow asOf r &&
    ((containsSub r.winner_name.toLower p1_last && containsSub r.loser_name.toLower p2_last) ||
     (containsSub r.winner_name.toLower p2_last && containsSub r.loser_name.toLower p1_last)))

/-- Player 1's head-to-head win fraction `p1_wins / total` over a list of
rows (source lines 247-249). -/
def h2hWinFrac (p1_last : String) (ms : List MatchRow) : Rat :=
  ((ms.filter (fun r => containsSub r.winner_name.toLower p1_last)).length : Rat) /
    (ms.length : Rat)

/-- `get_h2h_edge` (source lines 231-253). -/
def get_h2h_edge (p1_name p2_name : String) (asOf : Int) (h : List MatchRow) : Rat :=
  let p1_last := lastWordLower p1_name
  let p2_last := lastWordLower p2_name
  let ms := h2hMatches p1_last p2_last asOf h
  if ms.isEmpty then 0
  else
    let win_pct := h2hWinFrac p1_last ms
    if win_pct > 33/50 then 1/50
    else if win_pct < 17/50 then -1/50
    else 0

/-- The clamp of source lines 406-407: `max(0.40, min(0.85, p))`. -/
def clampProb (x : Rat) : Rat := max (2/5) (min (17/20) x)

/-- The serve probability derivation of source lines 398-407, taking the two
players' (possibly fatigue-adjusted) serve and return percentages and the
head-to-head edge. -/
def derive_serve_probs (s1_serve s1_ret s2_serve s2_ret h2h : Rat) : Rat × Rat :=
  let AVG : Rat := 16/25
  let p1 := AVG + (s1_serve - AVG) - (s2_ret - (1 - AVG)) + h2h
  let p2 := AVG + (s2_serve - AVG) - (s1_ret - (1 - AVG)) - h2h
  (clampProb p1, clampProb p2)

/-- Baseline serve percentage named as in the spec formula. -/
def baseline_serve : Rat := 16/25

/-- Baseline return percentage named as in the spec formula. -/
def baseline_return : Rat := 9/25

/-- A hard-court row relevant to surname `a`, 200 days before the reference
instant 1000, with full point columns (serve 6 of 10, opponent loses 5 of
10 on serve) and 150 minutes. -/
def rowHardOld : MatchRow :=
  ⟨800, "Hard", "x a", "y b", some 10, some 4, some 2, some 10, some 3, some 2, some 150⟩

/-- A clay row relevant to surname `a`, 2 days before the reference instant
1000, lasting 120 minutes. -/
def rowClayRecent : MatchRow :=
  ⟨998, "Clay", "x a", "y b", some 10, some 4, some 2, some 10, some 3, some 2, some 120⟩

/-- The two-row table for the fatigue counterexample: the player has
hard-court data, so the clay match 2 days ago is outside the aggregated
subset. -/
def tblC6 : List MatchRow := [rowHardOld, rowClayRecent]

/-- A head-to-head row within the window: `a` beats `b`. -/
def rowAbeatsB : MatchRow :=
  ⟨900, "Hard", "x a", "y b", none, none, none, none, none, none, none⟩

/-- A head-to-head row within the window: `b` beats `a`. -/
def rowBbeatsA : MatchRow :=
  ⟨901, "Hard", "y b", "x a", none, none, none, none, none, none, none⟩

/-- Three head-to-head matches in the trailing window, player `a` winning
two of three. -/
def tblC8 : List MatchRow := [rowAbeatsB, rowAbeatsB, rowBbeatsA]

/-- The server pattern of the regular games of a set: starting from
cumulative game total `total`, game `k` of the remainder is served by
player 1 exactly when the game total at its start is even. -/
def gamePat (total : Nat) : Nat → List Bool
  | 0 => []
  | k + 1 => ((total % 2 == 0)) :: gamePat (total + 1) k

/-! ## Theorems -/

lemma clampProb_mem (x : Rat) : 2/5 ≤ clampProb x ∧ clampProb x ≤ 17/20 := by
  unfold clampProb
  exact ⟨le_max_left _ _, max_le (by norm_num) (min_le_left _ _)⟩

/-- Claim C2: the derived serve probabilities follow the spec formula
`baseline_serve + (own_serve − baseline_serve) − (opp_return −
baseline_return) ± h2h` (h2h added for player 1, subtracted for player 2,
with baselines 0.64 and 0.36), and each result is clamped into
[0.40, 0.85] for all inputs. -/
theorem derive_serve_probs_spec (s1s s1r s2s s2r h2h : Rat) :
    derive_serve_probs s1s s1r s2s s2r h2h =
      (clampProb (baseline_serve + (s1s - baseline_serve) - (s2r - baseline_return) + h2h),
       clampProb (baseline_serve + (s2s - baseline_serve) - (s1r - baseline_return) - h2h)) ∧
    2/5 ≤ (derive_serve_probs s1s s1r s2s s2r h2h).1 ∧
    (derive_serve_probs s1s s1r s2s s2r h2h).1 ≤ 17/20 ∧
    2/5 ≤ (derive_serve_probs s1s s1r s2s s2r h2h).2 ∧
    (derive_serve_probs s1s s1r s2s s2r h2h).2 ≤ 17/20 := by
  have h1 : ((1 : Rat) - 16/25) = 9/25 := by norm_num
  refine ⟨?_, (clampProb_mem _).1, (clampProb_mem _).2,
    (clampProb_mem _).1, (clampProb_mem _).2⟩
  simp only [derive_serve_probs, baseline_serve, baseline_return, h1]

lemma isEmpty_false_of_ne_nil {α : Type} {l : List α} (h : l ≠ []) :
    l.isEmpty = false := by
  cases l with
  | nil => exact absurd rfl h
  | cons a t => rfl

/-- Claim C3: form estimation uses the 52-week surface-restricted subset
when it is nonempty, falls back to the same window over all surfaces when
it is empty, returns `none` (not a zero-filled form) when both are empty,
and substitutes the baselines 0.64 / 0.36 for a ratio whose points-played
total is zero. -/
theorem calculate_player_stats_fallback (pn s : String) (asOf : Int) (h : List MatchRow) :
    (relevantOnSurface (lastWordLower pn) s asOf h ≠ [] →
      calculate_player_stats pn s asOf h =
        some (aggregateStats (lastWordLower pn) asOf
          (relevantOnSurface (lastWordLower pn) s asOf h))) ∧
    (relevantOnSurface (lastWordLower pn) s asOf h = [] →
      relevantAnySurface (lastWordLower pn) asOf h ≠ [] →
      calculate_player_stats pn s asOf h =
        some (aggregateStats (lastWordLower pn) asOf
          (relevantAnySurface (lastWordLower pn) asOf h))) ∧
    (relevantOnSurface (lastWordLower pn) s asOf h = [] →
      relevantAnySurface (lastWordLower pn) asOf h = [] →
      calculate_player_stats pn s asOf h = none) ∧
    (∀ rows, (statsAcc (lastWordLower pn) asOf rows).serve_points_total = 0 →
      (aggregateStats (lastWordLower pn) asOf rows).serve_pct = 16/25) ∧
    (∀ rows, (statsAcc (lastWordLower pn) asOf rows).return_points_total = 0 →
      (aggregateStats (lastWordLower pn) asOf rows).return_pct = 9/25) := by
  refine ⟨?_, ?_, ?_, ?_, ?_⟩
  · intro hne
    unfold calculate_player_stats chosenRelevant
    simp only [isEmpty_false_of_ne_nil hne, Bool.false_eq_true, if_false,
      if_neg (isEmpty_false_of_ne_nil hne ▸ Bool.false_ne_true)]
  · intro hS hA
    unfold calculate_player_stats chosenRelevant
    simp only [hS, List.isEmpty_nil, if_true, isEmpty_false_of_ne_nil hA]
    simp
  · intro hS hA
    unfold calculate_player_stats chosenRelevant
    simp only [hS, hA, List.isEmpty_nil, if_true]
  · intro rows hz
    unfold aggregateStats
    simp only [hz]
    norm_num
  · intro rows hz
    unfold aggregateStats
    simp only [hz]
    norm_num

/-- Claim C3 witness: an empty history table yields the distinguishable
no-data result. -/
theorem calculate_player_stats_fallback_witness :
    calculate_player_stats "x a" "Hard" 1000 [] = none :=
  (calculate_player_stats_fallback "x a" "Hard" 1000 []).2.2.1 rfl rfl

/-- Claim C4: the head-to-head edge is always one of {−0.02, 0, +0.02}:
+0.02 when player 1's win fraction over the windowed head-to-head rows is
strictly above 0.66, −0.02 when strictly below 0.34, and 0 otherwise,
including when no head-to-head rows exist. -/
theorem h2h_edge_cases (p1 p2 : String) (asOf : Int) (h : List MatchRow) :
    (get_h2h_edge p1 p2 asOf h = -1/50 ∨ get_h2h_edge p1 p2 asOf h = 0 ∨
      get_h2h_edge p1 p2 asOf h = 1/50) ∧
    (h2hMatches (lastWordLower p1) (lastWordLower p2) asOf h = [] →
      get_h2h_edge p1 p2 asOf h = 0) ∧
    (h2hMatches (lastWordLower p1) (lastWordLower p2) asOf h ≠ [] →
      (h2hWinFrac (lastWordLower p1)
          (h2hMatches (lastWordLower p1) (lastWordLower p2) asOf h) > 33/50 →
        get_h2h_edge p1 p2 asOf h = 1/50) ∧
      (h2hWinFrac (lastWordLower p1)
          (h2hMatches (lastWordLower p1) (lastWordLower p2) asOf h) < 17/50 →
        get_h2h_edge p1 p2 asOf h = -1/50) ∧
      (17/50 ≤ h2hWinFrac (lastWordLower p1)
          (h2hMatches (lastWordLower p1) (lastWordLower p2) asOf h) →
        h2hWinFrac (lastWordLower p1)
          (h2hMatches (lastWordLower p1) (lastWordLower p2) asOf h) ≤ 33/50 →
        get_h2h_edge p1 p2 asOf h = 0)) := by
  by_cases he : h2hMatches (lastWordLower p1) (lastWordLower p2) asOf h = []
  · have hg : get_h2h_edge p1 p2 asOf h = 0 := by
      unfold get_h2h_edge
      simp only [he, List.isEmpty_nil, if_true]
    exact ⟨Or.inr (Or.inl hg), fun _ => hg, fun hne => absurd he hne⟩
  · have hEf := isEmpty_false_of_ne_nil he
    have hg : get_h2h_edge p1 p2 asOf h =
        (if h2hWinFrac (lastWordLower p1)
              (h2hMatches (lastWordLower p1) (lastWordLower p2) asOf h) > 33/50 then 1/50
         else if h2hWinFrac (lastWordLower p1)
              (h2hMatches (lastWordLower p1) (lastWordLower p2) asOf h) < 17/50 then -1/50
         else 0) := by
      unfold get_h2h_edge
      simp only [hEf, Bool.false_eq_true, if_false]
    refine ⟨?_, fun hemp => absurd hemp he, fun _ => ⟨?_, ?_, ?_⟩⟩
    · rw [hg]
      split
      · exact Or.inr (Or.inr rfl)
      · split
        · exact Or.inl rfl
        · exact Or.inr (Or.inl rfl)
    · intro hgt
      rw [hg, if_pos hgt]
    · intro hlt
      rw [hg, if_neg (by linarith), if_pos hlt]
    · intro hge hle
      rw [hg, if_neg (by linarith), if_neg (by linarith)]

/-- Claim C4 witness: with no head-to-head rows the edge evaluates to 0. -/
theorem h2h_edge_cases_witness : get_h2h_edge "x a" "y b" 1000 [] = 0 :=
  (h2h_edge_cases "x a" "y b" 1000 []).2.1 rfl

/-- Claim C8 counterexample: on a table with exactly 3 head-to-head matches
of which player 1 won 2, the edge is not 0 — the win fraction 2/3 ≈ 0.667
exceeds the 0.66 threshold, so the code reports a +0.02 edge, contradicting
the claim that the edge must equal 0 at this input. -/
theorem h2h_two_of_three_cex : get_h2h_edge "x a" "y b" 1000 tblC8 ≠ 0 := by
  have hv : get_h2h_edge "x a" "y b" 1000 tblC8 = 1/50 := by
    with_unfolding_all rfl
  rw [hv]
  norm_num

/-- Claim C8 amended: whenever the head-to-head subset has exactly 3 rows of
which player 1 won 2, the edge equals +0.02 (2/3 is strictly greater than
0.66; the strict `>` excludes only win fractions of exactly 0.66 or less). -/
theorem h2h_two_of_three_edge (p1 p2 : String) (asOf : Int) (h : List MatchRow)
    (h3 : (h2hMatches (lastWordLower p1) (lastWordLower p2) asOf h).length = 3)
    (h2 : ((h2hMatches (lastWordLower p1) (lastWordLower p2) asOf h).filter
        (fun r => containsSub r.winner_name.toLower (lastWordLower p1))).length = 2) :
    get_h2h_edge p1 p2 asOf h = 1/50 := by
  have hne : h2hMatches (lastWordLower p1) (lastWordLower p2) asOf h ≠ [] := by
    intro hnil
    rw [hnil] at h3
    simp at h3
  have hwf : h2hWinFrac (lastWordLower p1)
      (h2hMatches (lastWordLower p1) (lastWordLower p2) asOf h) = 2/3 := by
    unfold h2hWinFrac
    rw [h3, h2]
    norm_num
  unfold get_h2h_edge
  simp only [isEmpty_false_of_ne_nil hne, Bool.false_eq_true, if_false, hwf]
  norm_num

/-- Claim C8 amended witness: the concrete 3-row table with 2 wins for
player 1 evaluates to the +0.02 edge. -/
theorem h2h_two_of_three_edge_witness : get_h2h_edge "x a" "y b" 1000 tblC8 = 1/50 :=
  h2h_two_of_three_edge "x a" "y b" 1000 tblC8 (by with_unfolding_all rfl)
    (by with_unfolding_all rfl)

lemma addServe_minutes (acc : StatsAcc) (sp sw : Option Int) :
    (addServe acc sp sw).minutes_played_recent = acc.minutes_played_recent := by
  cases sp <;> cases sw <;> rfl

lemma addReturn_minutes (acc : StatsAcc) (rp rw : Option Int) :
    (addReturn acc rp rw).minutes_played_recent = acc.minutes_played_recent := by
  cases rp <;> cases rw <;> rfl

lemma statStep_minutes (pLast : String) (today : Int) (acc : StatsAcc) (r : MatchRow) :
    (statStep pLast today acc r).minutes_played_recent =
      acc.minutes_played_recent +
        (if today - r.tourney_date ≤ 7 then r.minutes.getD 90 else 0) := by
  unfold statStep
  rw [addReturn_minutes, addServe_minutes]
  unfold addFatigue
  split
  · rfl
  · simp

lemma foldl_statStep_minutes (pLast : String) (today : Int) :
    ∀ (rows : List MatchRow) (acc : StatsAcc),
      (rows.foldl (statStep pLast today) acc).minutes_played_recent =
        acc.minutes_played_recent + fatigueSum today rows := by
  intro rows
  induction rows with
  | nil =>
    intro acc
    simp [fatigueSum]
  | cons r rs ih =>
    intro acc
    have hsum : fatigueSum today (r :: rs) =
        (if today - r.tourney_date ≤ 7 then r.minutes.getD 90 else 0) +
          fatigueSum today rs := by
      simp [fatigueSum]
    rw [List.foldl_cons, ih, statStep_minutes, hsum]
    ring

/-- Claim C6 counterexample: for a player with hard-court rows, a clay match
2 days before the as-of instant contributes nothing to `recent_minutes` even
though the surface-independent 7-day fatigue sum over the windowed relevant
rows is 120 — the code sums fatigue only over the surface-filtered subset,
contradicting the claim that fatigue is computed regardless of surface
filtering. -/
theorem fatigue_surface_cex :
    calculate_player_stats "x a" "Hard" 1000 tblC6 = some ⟨3/5, 1/2, 0⟩ ∧
    fatigueSum 1000 (relevantAnySurface (lastWordLower "x a") 1000 tblC6) = 120 := by
  constructor
  · with_unfolding_all rfl
  · with_unfolding_all rfl

/-- Claim C6 amended: the recent-minutes fatigue signal is the sum of match
durations (90 substituted when missing) over rows within 7 days of the as-of
instant of the same surface-filtered (or fallback) subset used for the
serve/return aggregation — not over relevant rows of all surfaces. -/
theorem fatigue_over_chosen_subset (pn s : String) (asOf : Int) (h : List MatchRow)
    (st : PlayerStats) (hc : calculate_player_stats pn s asOf h = some st) :
    st.recent_minutes = fatigueSum asOf (chosenRelevant (lastWordLower pn) s asOf h) := by
  unfold calculate_player_stats at hc
  by_cases hE : (chosenRelevant (lastWordLower pn) s asOf h).isEmpty = true
  · simp only [hE, if_true] at hc
    exact absurd hc (by simp)
  · simp only [hE, if_false] at hc
    have hst : st = aggregateStats (lastWordLower pn) asOf
        (chosenRelevant (lastWordLower pn) s asOf h) := by
      injection hc with hc
      exact hc.symm
    subst hst
    show (List.foldl (statStep (lastWordLower pn) asOf) accZero
        (chosenRelevant (lastWordLower pn) s asOf h)).minutes_played_recent =
      fatigueSum asOf (chosenRelevant (lastWordLower pn) s asOf h)
    rw [foldl_statStep_minutes]
    show (0 : Int) + _ = _
    rw [Int.zero_add]

/-- Claim C6 amended witness: on the concrete two-row table the aggregated
subset is the single old hard-court row, whose 7-day fatigue sum is 0. -/
theorem fatigue_over_chosen_subset_witness :
    (⟨3/5, 1/2, 0⟩ : PlayerStats).recent_minutes =
      fatigueSum 1000 (chosenRelevant (lastWordLower "x a") "Hard" 1000 tblC6) :=
  fatigue_over_chosen_subset "x a" "Hard" 1000 tblC6 ⟨3/5, 1/2, 0⟩
    (by with_unfolding_all rfl)

/-- Claim C7 counterexample: `best_of = 4` is not rejected — the simulator
runs to completion and returns a probability. -/
theorem best_of_no_reject_cex : simulate_match 1 0 1 4 dzero 200 = .ok 1 := by
  with_unfolding_all rfl

/-- Claim C7 amended: `simulate_match` performs no validation of `best_of`:
every value other than 3 is silently given `sets_to_win = 3`, i.e. it behaves
exactly like best-of-5; nothing is rejected before simulation. -/
theorem best_of_silent_default (bo : Nat) (hbo : bo ≠ 3) :
    setsToWin bo = 3 ∧
    ∀ (p q : Rat) (it : Nat) (d : Draws) (fuel : Nat),
      simulate_match p q it bo d fuel = simulate_match p q it 5 d fuel := by
  have h3 : setsToWin bo = 3 := by
    unfold setsToWin
    have : (bo == 3) = false := by
      simpa using hbo
    rw [this]
    rfl
  refine ⟨h3, fun p q it d fuel => ?_⟩
  unfold simulate_match
  rw [h3]
  rfl

/-- Claim C7 amended witness: best-of-4 behaves exactly like best-of-5. -/
theorem best_of_silent_default_witness :
    setsToWin 4 = 3 ∧
    simulate_match 1 0 1 4 dzero 200 = simulate_match 1 0 1 5 dzero 200 :=
  ⟨(best_of_silent_default 4 (by decide)).1,
   (best_of_silent_default 4 (by decide)).2 1 0 1 dzero 200⟩

lemma simulate_match_eq_of_some (p q : Rat) (it bo : Nat) (d : Draws) (fuel w i : Nat)
    (hit : simIters p q (setsToWin bo) d fuel it 0 0 = some (w, i)) :
    simulate_match p q it bo d fuel =
      if it = 0 then .error .zeroDiv else .ok ((w : Rat) / (it : Rat)) := by
  unfold simulate_match
  rw [hit]

lemma simIters_wins_le (p q : Rat) (stw : Nat) (d : Draws) (fuel : Nat) :
    ∀ (n idx w0 w i : Nat), simIters p q stw d fuel n idx w0 = some (w, i) →
      w ≤ w0 + n := by
  intro n
  induction n with
  | zero =>
    intro idx w0 w i hh
    simp only [simIters, Option.some.injEq, Prod.mk.injEq] at hh
    omega
  | succ n ih =>
    intro idx w0 w i hh
    simp only [simIters] at hh
    cases hone : simOne p q stw d fuel idx 0 0 with
    | none =>
      rw [hone] at hh
      exact absurd hh (by simp)
    | some res =>
      obtain ⟨ww, s1, s2, idx'⟩ := res
      rw [hone] at hh
      have hle := ih idx' (if ww then w0 + 1 else w0) w i hh
      cases ww <;> simp at hle <;> omega

/-- Claim C9: when the division is reached with `iterations ≥ 1`,
`simulate_match` returns the win count divided by the iteration count, a
value in [0, 1]; with `iterations = 0` the unguarded final division fails
(the embedded division-by-zero error), instead of returning a probability. -/
theorem simulate_match_ratio :
    (∀ (p q : Rat) (bo : Nat) (d : Draws) (fuel : Nat),
        simulate_match p q 0 bo d fuel = .error .zeroDiv) ∧
    (∀ (p q : Rat) (it bo : Nat) (d : Draws) (fuel : Nat) (r : Rat),
        simulate_match p q it bo d fuel = .ok r →
        1 ≤ it ∧ ∃ w i, simIters p q (setsToWin bo) d fuel it 0 0 = some (w, i) ∧
          w ≤ it ∧ r = (w : Rat) / (it : Rat) ∧ 0 ≤ r ∧ r ≤ 1) := by
  constructor
  · intro p q bo d fuel
    rfl
  · intro p q it bo d fuel r hr
    cases hit : simIters p q (setsToWin bo) d fuel it 0 0 with
    | none =>
      unfold simulate_match at hr
      rw [hit] at hr
      exact absurd hr (by simp)
    | some wi =>
      obtain ⟨w, i⟩ := wi
      rw [simulate_match_eq_of_some p q it bo d fuel w i hit] at hr
      by_cases h0 : it = 0
      · rw [if_pos h0] at hr
        exact absurd hr (by simp)
      · rw [if_neg h0] at hr
        have hw : w ≤ it := by
          simpa using simIters_wins_le p q (setsToWin bo) d fuel it 0 0 w i hit
        have hrw : r = (w : Rat) / (it : Rat) := by
          injection hr with hr
          exact hr.symm
        have hpos : (0 : Rat) < (it : Rat) := by
          exact_mod_cast Nat.pos_of_ne_zero h0
        refine ⟨Nat.one_le_iff_ne_zero.2 h0, w, i, rfl, hw, hrw, ?_, ?_⟩
        · rw [hrw]
          positivity
        · rw [hrw, div_le_one hpos]
          exact_mod_cast hw

/-- Claim C9 witness: a concrete two-iteration run in which player 1 wins
both simulated matches, so the returned probability is 2/2 = 1. -/
theorem simulate_match_ratio_witness :
    1 ≤ 2 ∧ ∃ w i, simIters 1 0 (setsToWin 3) dzero 200 2 0 0 = some (w, i) ∧
      w ≤ 2 ∧ (1 : Rat) = (w : Rat) / ((2 : Nat) : Rat) ∧
      0 ≤ (1 : Rat) ∧ (1 : Rat) ≤ 1 :=
  simulate_match_ratio.2 1 0 2 3 dzero 200 1 (by with_unfolding_all rfl)

lemma deuceD_range (i : Nat) : 0 ≤ deuceD i ∧ deuceD i < 1 := by
  unfold deuceD
  split <;> norm_num

lemma simGame_alt_aux (p2 : Rat) :
    ∀ fuel : Nat,
      (∀ k a : Nat, simGame (1/2) p2 true deuceD fuel (2 * k) a a = none) ∧
      (∀ k a : Nat, simGame (1/2) p2 true deuceD fuel (2 * k + 1) (a + 1) a = none) := by
  intro fuel
  induction fuel with
  | zero =>
    constructor
    · intro k a
      simp only [simGame]
      rw [if_neg (by omega), if_neg (by omega)]
    · intro k a
      simp only [simGame]
      rw [if_neg (by omega), if_neg (by omega)]
  | succ n ih =>
    have hde : ∀ k : Nat, deuceD (2 * k) = 0 := by
      intro k
      unfold deuceD
      have hm : (2 * k) % 2 = 0 := by omega
      rw [hm]
      rfl
    have hdo : ∀ k : Nat, deuceD (2 * k + 1) = 3/4 := by
      intro k
      unfold deuceD
      have hm : (2 * k + 1) % 2 = 1 := by omega
      rw [hm]
      rfl
    constructor
    · intro k a
      simp only [simGame]
      rw [if_neg (by omega), if_neg (by omega), hde k]
      norm_num
      exact ih.2 k a
    · intro k a
      simp only [simGame]
      rw [if_neg (by omega), if_neg (by omega), hdo k]
      norm_num
      have h2 : 2 * k + 1 + 1 = 2 * (k + 1) := by omega
      rw [h2]
      exact ih.1 (k + 1) (a + 1)

/-- Claim C10 counterexample: with serve probability 1/2 and the realizable
adversarial draw stream `deuceD` (every draw in [0, 1), alternating 0 and
3/4, so the point alternates between the players — an endless deuce), the
very first game is still unfinished after 300 point draws, more than the
claimed per-match bound, so the number of point draws per simulated match
has no fixed upper bound independent of the draw sequence. -/
theorem game_loop_unbounded_cex :
    (∀ i, 0 ≤ deuceD i ∧ deuceD i < 1) ∧
    simGame (1/2) 0 true deuceD 300 0 0 0 = none :=
  ⟨deuceD_range, by with_unfolding_all rfl⟩

/-- Claim C10 amended: per-match cost is not bounded independently of the
randomness: for every fuel bound there is a draw sequence with every value
in [0, 1) — the range of `random.random()` — under which the game loop has
not terminated within that bound (alternating point winners at serve
probability 1/2, an endless deuce), so only probabilistic (not worst-case)
termination holds. -/
theorem game_loop_no_uniform_bound (fuel : Nat) (p2 : Rat) :
    (∀ i, 0 ≤ deuceD i ∧ deuceD i < 1) ∧
    simGame (1/2) p2 true deuceD fuel 0 0 0 = none := by
  refine ⟨deuceD_range, ?_⟩
  have hh := (simGame_alt_aux p2 fuel).1 0 0
  simpa using hh

lemma tbCredit_win (s : Bool) (t1 t2 : Nat) : tbCredit s true t1 t2 = (t1 + 1, t2) := by
  cases s <;> rfl

lemma tbCredit_lose (s : Bool) (t1 t2 : Nat) : tbCredit s false t1 t2 = (t1, t2 + 1) := by
  cases s <;> rfl

lemma tbCredit_sum (s w : Bool) (t1 t2 : Nat) :
    (tbCredit s w t1 t2).1 + (tbCredit s w t1 t2).2 = t1 + t2 + 1 := by
  cases s <;> cases w <;> simp [tbCredit] <;> omega

lemma simGame_some_over (p q : Rat) (s : Bool) (d : Draws) :
    ∀ (fuel idx a b x y i : Nat),
      simGame p q s d fuel idx a b = some (x, y, i) →
      (x ≥ 4 ∧ x ≥ y + 2) ∨ (y ≥ 4 ∧ y ≥ x + 2) := by
  intro fuel
  induction fuel with
  | zero =>
    intro idx a b x y i hh
    simp only [simGame] at hh
    split at hh
    · rename_i hc
      simp only [Option.some.injEq, Prod.mk.injEq] at hh
      obtain ⟨hx, hy, -⟩ := hh
      subst hx; subst hy
      exact Or.inl hc
    · split at hh
      · rename_i hc
        simp only [Option.some.injEq, Prod.mk.injEq] at hh
        obtain ⟨hx, hy, -⟩ := hh
        subst hx; subst hy
        exact Or.inr hc
      · exact absurd hh (by simp)
  | succ n ih =>
    intro idx a b x y i hh
    simp only [simGame] at hh
    split at hh
    · rename_i hc
      simp only [Option.some.injEq, Prod.mk.injEq] at hh
      obtain ⟨hx, hy, -⟩ := hh
      subst hx; subst hy
      exact Or.inl hc
    · split at hh
      · rename_i hc
        simp only [Option.some.injEq, Prod.mk.injEq] at hh
        obtain ⟨hx, hy, -⟩ := hh
        subst hx; subst hy
        exact Or.inr hc
      · split at hh
        · split at hh
          · exact ih _ _ _ _ _ _ hh
          · exact ih _ _ _ _ _ _ hh
        · split at hh
          · exact ih _ _ _ _ _ _ hh
          · exact ih _ _ _ _ _ _ hh

lemma simGame_immediate (p q : Rat) (s : Bool) (d : Draws) (fuel idx a b : Nat)
    (h : (a ≥ 4 ∧ a ≥ b + 2) ∨ (b ≥ 4 ∧ b ≥ a + 2)) :
    simGame p q s d fuel idx a b = some (a, b, idx) := by
  rcases h with h | h
  · cases fuel <;> simp only [simGame] <;> rw [if_pos h]
  · have hn : ¬(a ≥ 4 ∧ a ≥ b + 2) := by omega
    cases fuel <;> simp only [simGame] <;> rw [if_neg hn, if_pos h]

lemma simTB_some_over (p q : Rat) (d : Draws) :
    ∀ (fuel idx t1 t2 : Nat) (srv w : Bool) (x y i : Nat) (S : List Bool),
      simTB p q d fuel idx t1 t2 srv = some (w, x, y, i, S) →
      (w = true → x ≥ 7 ∧ x ≥ y + 2) ∧ (w = false → y ≥ 7 ∧ y ≥ x + 2) := by
  intro fuel
  induction fuel with
  | zero =>
    intro idx t1 t2 srv w x y i S hh
    simp only [simTB] at hh
    split at hh
    · rename_i hc
      simp only [Option.some.injEq, Prod.mk.injEq] at hh
      obtain ⟨hw, hx, hy, -, -⟩ := hh
      subst hw; subst hx; subst hy
      exact ⟨fun _ => hc, fun hf => by simp at hf⟩
    · split at hh
      · rename_i hc
        simp only [Option.some.injEq, Prod.mk.injEq] at hh
        obtain ⟨hw, hx, hy, -, -⟩ := hh
        subst hw; subst hx; subst hy
        exact ⟨fun ht => by simp at ht, fun _ => hc⟩
      · exact absurd hh (by simp)
  | succ n ih =>
    intro idx t1 t2 srv w x y i S hh
    simp only [simTB] at hh
    split at hh
    · rename_i hc
      simp only [Option.some.injEq, Prod.mk.injEq] at hh
      obtain ⟨hw, hx, hy, -, -⟩ := hh
      subst hw; subst hx; subst hy
      exact ⟨fun _ => hc, fun hf => by simp at hf⟩
    · split at hh
      · rename_i hc
        simp only [Option.some.injEq, Prod.mk.injEq] at hh
        obtain ⟨hw, hx, hy, -, -⟩ := hh
        subst hw; subst hx; subst hy
        exact ⟨fun ht => by simp at ht, fun _ => hc⟩
      · split at hh
        · exact absurd hh (by simp)
        · rename_i w' x' y' i' L' heq
          simp only [Option.some.injEq, Prod.mk.injEq] at hh
          obtain ⟨hw, hx, hy, hi, -⟩ := hh
          subst hw; subst hx; subst hy
          exact ih _ _ _ _ _ _ _ _ _ heq

lemma simTB_servers (p q : Rat) (d : Draws) :
    ∀ (fuel idx t1 t2 : Nat) (srv w : Bool) (x y i : Nat) (S : List Bool),
      simTB p q d fuel idx t1 t2 srv = some (w, x, y, i, S) →
      S = tbPat (t1 + t2) srv S.length := by
  intro fuel
  induction fuel with
  | zero =>
    intro idx t1 t2 srv w x y i S hh
    simp only [simTB] at hh
    split at hh
    · simp only [Option.some.injEq, Prod.mk.injEq] at hh
      obtain ⟨-, -, -, -, hS⟩ := hh
      subst hS
      rfl
    · split at hh
      · simp only [Option.some.injEq, Prod.mk.injEq] at hh
        obtain ⟨-, -, -, -, hS⟩ := hh
        subst hS
        rfl
      · exact absurd hh (by simp)
  | succ n ih =>
    intro idx t1 t2 srv w x y i S hh
    simp only [simTB] at hh
    split at hh
    · simp only [Option.some.injEq, Prod.mk.injEq] at hh
      obtain ⟨-, -, -, -, hS⟩ := hh
      subst hS
      rfl
    · split at hh
      · simp only [Option.some.injEq, Prod.mk.injEq] at hh
        obtain ⟨-, -, -, -, hS⟩ := hh
        subst hS
        rfl
      · split at hh
        · exact absurd hh (by simp)
        · rename_i w' x' y' i' L' heq
          simp only [Option.some.injEq, Prod.mk.injEq] at hh
          obtain ⟨-, -, -, -, hS⟩ := hh
          subst hS
          have hrec := ih _ _ _ _ _ _ _ _ _ heq
          rw [List.length_cons, tbPat, ← tbCredit_sum srv
            (decide (d idx < if srv = true then p else 1 - q)) t1 t2]
          rw [← hrec]

lemma gamePat_eq_range : ∀ (n m : Nat),
    gamePat m n = (List.range n).map (fun k => ((m + k) % 2 == 0)) := by
  intro n
  induction n with
  | zero =>
    intro m
    rfl
  | succ k ih =>
    intro m
    have hfun : (fun j => ((m + 1 + j) % 2 == 0)) =
        ((fun j => ((m + j) % 2 == 0)) ∘ Nat.succ) := by
      funext j
      show ((m + 1 + j) % 2 == 0) = ((m + (j + 1)) % 2 == 0)
      have he : m + 1 + j = m + (j + 1) := by omega
      rw [he]
    rw [gamePat, List.range_succ_eq_map, List.map_cons, List.map_map, ih (m + 1), hfun]
    norm_num

lemma simSet_at7 (p q : Rat) (d : Draws) (fuel idx g2' : Nat) :
    simSet p q d fuel idx 7 g2' = some (true, 7, g2', idx, [], none) := by
  cases fuel <;> simp [simSet]

lemma simSet_at67 (p q : Rat) (d : Draws) (fuel idx : Nat) :
    simSet p q d fuel idx 6 7 = some (false, 6, 7, idx, [], none) := by
  cases fuel <;> simp [simSet]

lemma simSet_some_over (p q : Rat) (d : Draws) :
    ∀ (fuel idx g1 g2 : Nat) (w : Bool) (x y i : Nat) (L : List Bool)
      (tb : Option (Nat × Nat)),
      simSet p q d fuel idx g1 g2 = some (w, x, y, i, L, tb) →
      (w = true → (x ≥ 6 ∧ x ≥ y + 2) ∨ x = 7) ∧
      (w = false → (y ≥ 6 ∧ y ≥ x + 2) ∨ y = 7) := by
  intro fuel
  induction fuel with
  | zero =>
    intro idx g1 g2 w x y i L tb hh
    simp only [simSet] at hh
    split at hh
    · rename_i hc
      simp only [Option.some.injEq, Prod.mk.injEq] at hh
      obtain ⟨hw, hx, hy, -, -, -⟩ := hh
      subst hw; subst hx; subst hy
      exact ⟨fun _ => hc, fun hf => by simp at hf⟩
    · split at hh
      · rename_i hc
        simp only [Option.some.injEq, Prod.mk.injEq] at hh
        obtain ⟨hw, hx, hy, -, -, -⟩ := hh
        subst hw; subst hx; subst hy
        exact ⟨fun ht => by simp at ht, fun _ => hc⟩
      · exact absurd hh (by simp)
  | succ n ih =>
    intro idx g1 g2 w x y i L tb hh
    simp only [simSet] at hh
    split at hh
    · rename_i hc
      simp only [Option.some.injEq, Prod.mk.injEq] at hh
      obtain ⟨hw, hx, hy, -, -, -⟩ := hh
      subst hw; subst hx; subst hy
      exact ⟨fun _ => hc, fun hf => by simp at hf⟩
    · split at hh
      · rename_i hc
        simp only [Option.some.injEq, Prod.mk.injEq] at hh
        obtain ⟨hw, hx, hy, -, -, -⟩ := hh
        subst hw; subst hx; subst hy
        exact ⟨fun ht => by simp at ht, fun _ => hc⟩
      · split at hh
        · -- tie-break branch
          split at hh
          · exact absurd hh (by simp)
          · rename_i w' t1 t2 idx' S' heq1
            split at hh
            · exact absurd hh (by simp)
            · rename_i w2 x' y' i' L' tb' heq2
              simp only [Option.some.injEq, Prod.mk.injEq] at hh
              obtain ⟨hw, hx, hy, -, -, -⟩ := hh
              subst hw; subst hx; subst hy
              split at heq2
              · exact ih _ _ _ _ _ _ _ _ _ heq2
              · exact ih _ _ _ _ _ _ _ _ _ heq2
        · -- regular game branch
          split at hh
          · exact absurd hh (by simp)
          · rename_i a b idx' heqg
            split at hh
            · exact absurd hh (by simp)
            · rename_i w2 x' y' i' L' tb' heq2
              simp only [Option.some.injEq, Prod.mk.injEq] at hh
              obtain ⟨hw, hx, hy, -, -, -⟩ := hh
              subst hw; subst hx; subst hy
              split at heq2
              · exact ih _ _ _ _ _ _ _ _ _ heq2
              · exact ih _ _ _ _ _ _ _ _ _ heq2

lemma simSet_servers (p q : Rat) (d : Draws) :
    ∀ (fuel idx g1 g2 : Nat) (w : Bool) (x y i : Nat) (L : List Bool)
      (tb : Option (Nat × Nat)),
      simSet p q d fuel idx g1 g2 = some (w, x, y, i, L, tb) →
      L = gamePat (g1 + g2) L.length := by
  intro fuel
  induction fuel with
  | zero =>
    intro idx g1 g2 w x y i L tb hh
    simp only [simSet] at hh
    split at hh
    · simp only [Option.some.injEq, Prod.mk.injEq] at hh
      obtain ⟨-, -, -, -, hS, -⟩ := hh
      subst hS
      rfl
    · split at hh
      · simp only [Option.some.injEq, Prod.mk.injEq] at hh
        obtain ⟨-, -, -, -, hS, -⟩ := hh
        subst hS
        rfl
      · exact absurd hh (by simp)
  | succ n ih =>
    intro idx g1 g2 w x y i L tb hh
    simp only [simSet] at hh
    split at hh
    · simp only [Option.some.injEq, Prod.mk.injEq] at hh
      obtain ⟨-, -, -, -, hS, -⟩ := hh
      subst hS
      rfl
    · split at hh
      · simp only [Option.some.injEq, Prod.mk.injEq] at hh
        obtain ⟨-, -, -, -, hS, -⟩ := hh
        subst hS
        rfl
      · split at hh
        · rename_i hc66
          obtain ⟨hg1, hg2⟩ := hc66
          subst hg1; subst hg2
          split at hh
          · exact absurd hh (by simp)
          · rename_i w' t1 t2 idx' S' heq1
            split at hh
            · exact absurd hh (by simp)
            · rename_i w2 x' y' i' L' tb' heq2
              simp only [Option.some.injEq, Prod.mk.injEq] at hh
              obtain ⟨-, -, -, -, hS, -⟩ := hh
              subst hS
              split at heq2
              · rw [simSet_at7] at heq2
                simp only [Option.some.injEq, Prod.mk.injEq] at heq2
                obtain ⟨-, -, -, -, hL, -⟩ := heq2
                subst hL
                rfl
              · rw [simSet_at67] at heq2
                simp only [Option.some.injEq, Prod.mk.injEq] at heq2
                obtain ⟨-, -, -, -, hL, -⟩ := heq2
                subst hL
                rfl
        · split at hh
          · exact absurd hh (by simp)
          · rename_i a b idx' heqg
            split at hh
            · exact absurd hh (by simp)
            · rename_i w2 x' y' i' L' tb' heq2
              simp only [Option.some.injEq, Prod.mk.injEq] at hh
              obtain ⟨-, -, -, -, hS, -⟩ := hh
              subst hS
              rw [List.length_cons, gamePat]
              split at heq2
              · have hrec := ih _ _ _ _ _ _ _ _ _ heq2
                have he : g1 + 1 + g2 = g1 + g2 + 1 := by omega
                rw [he] at hrec
                rw [← hrec]
              · have hrec := ih _ _ _ _ _ _ _ _ _ heq2
                have he : g1 + (g2 + 1) = g1 + g2 + 1 := by omega
                rw [he] at hrec
                rw [← hrec]

lemma simSet_tb_assigns (p q : Rat) (d : Draws) :
    ∀ (fuel idx g1 g2 : Nat) (w : Bool) (x y i : Nat) (L : List Bool) (t1 t2 : Nat),
      simSet p q d fuel idx g1 g2 = some (w, x, y, i, L, some (t1, t2)) →
      (w = true ∧ x = 7 ∧ y = 6 ∧ t1 ≥ 7 ∧ t1 ≥ t2 + 2) ∨
      (w = false ∧ x = 6 ∧ y = 7 ∧ t2 ≥ 7 ∧ t2 ≥ t1 + 2) := by
  intro fuel
  induction fuel with
  | zero =>
    intro idx g1 g2 w x y i L t1 t2 hh
    simp only [simSet] at hh
    split at hh
    · simp at hh
    · split at hh
      · simp at hh
      · exact absurd hh (by simp)
  | succ n ih =>
    intro idx g1 g2 w x y i L t1 t2 hh
    simp only [simSet] at hh
    split at hh
    · simp at hh
    · split at hh
      · simp at hh
      · split at hh
        · rename_i hc66
          obtain ⟨hg1, hg2⟩ := hc66
          subst hg1; subst hg2
          split at hh
          · exact absurd hh (by simp)
          · rename_i w' t1' t2' idx' S' heq1
            have hover := simTB_some_over p q d _ _ _ _ _ _ _ _ _ _ heq1
            split at hh
            · exact absurd hh (by simp)
            · rename_i w2 x' y' i' L' tb' heq2
              simp only [Option.some.injEq, Prod.mk.injEq] at hh
              obtain ⟨hw, hx, hy, -, -, ht1, ht2⟩ := hh
              split at heq2
              · rename_i hw'
                rw [simSet_at7] at heq2
                simp only [Option.some.injEq, Prod.mk.injEq] at heq2
                obtain ⟨hw2, hx', hy', -, -, -⟩ := heq2
                left
                refine ⟨?_, ?_, ?_, ?_, ?_⟩
                · rw [← hw, ← hw2]
                · rw [← hx, ← hx']
                · rw [← hy, ← hy']
                · rw [← ht1]
                  exact (hover.1 hw').1
                · rw [← ht1, ← ht2]
                  exact (hover.1 hw').2
              · rename_i hw'
                rw [simSet_at67] at heq2
                simp only [Option.some.injEq, Prod.mk.injEq] at heq2
                obtain ⟨hw2, hx', hy', -, -, -⟩ := heq2
                right
                have hwf : w' = false := by
                  cases w'
                  · rfl
                  · exact absurd rfl hw'
                refine ⟨?_, ?_, ?_, ?_, ?_⟩
                · rw [← hw, ← hw2]
                · rw [← hx, ← hx']
                · rw [← hy, ← hy']
                · rw [← ht2]
                  exact (hover.2 hwf).1
                · rw [← ht1, ← ht2]
                  exact (hover.2 hwf).2
        · split at hh
          · exact absurd hh (by simp)
          · rename_i a b idx' heqg
            split at hh
            · exact absurd hh (by simp)
            · rename_i w2 x' y' i' L' tb' heq2
              simp only [Option.some.injEq, Prod.mk.injEq] at hh
              obtain ⟨hw, hx, hy, -, -, htb⟩ := hh
              subst hw; subst hx; subst hy
              rw [htb] at heq2
              split at heq2
              · exact ih _ _ _ _ _ _ _ _ _ _ heq2
              · exact ih _ _ _ _ _ _ _ _ _ _ heq2

lemma simOne_char (p q : Rat) (d : Draws) (stw : Nat) :
    ∀ (fuel idx s1 s2 : Nat) (w : Bool) (x y i : Nat),
      s1 ≤ stw → s2 ≤ stw → ¬(s1 = stw ∧ s2 = stw) →
      simOne p q stw d fuel idx s1 s2 = some (w, x, y, i) →
      ((x = stw ∧ y < stw) ∨ (y = stw ∧ x < stw)) ∧ w = (x == stw) := by
  intro fuel
  induction fuel with
  | zero =>
    intro idx s1 s2 w x y i h1 h2 h3 hh
    simp only [simOne] at hh
    split at hh
    · exact absurd hh (by simp)
    · rename_i hni
      simp only [Option.some.injEq, Prod.mk.injEq] at hh
      obtain ⟨hw, hx, hy, -⟩ := hh
      subst hx; subst hy
      exact ⟨by omega, hw.symm⟩
  | succ n ih =>
    intro idx s1 s2 w x y i h1 h2 h3 hh
    simp only [simOne] at hh
    split at hh
    · rename_i hlt
      split at hh
      · exact absurd hh (by simp)
      · rename_i ws a' b' idx' L' tb' heqs
        split at hh
        · exact ih _ _ _ _ _ _ _ (by omega) (by omega) (by omega) hh
        · exact ih _ _ _ _ _ _ _ (by omega) (by omega) (by omega) hh
    · rename_i hni
      simp only [Option.some.injEq, Prod.mk.injEq] at hh
      obtain ⟨hw, hx, hy, -⟩ := hh
      subst hx; subst hy
      exact ⟨by omega, hw.symm⟩

lemma simTB_immediate (p q : Rat) (d : Draws) (fuel idx t1 t2 : Nat) (srv : Bool)
    (h : (t1 ≥ 7 ∧ t1 ≥ t2 + 2) ∨ (t2 ≥ 7 ∧ t2 ≥ t1 + 2)) :
    ∃ w, simTB p q d fuel idx t1 t2 srv = some (w, t1, t2, idx, []) := by
  rcases h with h | h
  · exact ⟨true, by cases fuel <;> simp only [simTB] <;> rw [if_pos h]⟩
  · have hn : ¬(t1 ≥ 7 ∧ t1 ≥ t2 + 2) := by omega
    exact ⟨false, by cases fuel <;> simp only [simTB] <;> rw [if_neg hn, if_pos h]⟩

/-- Claim C1: the scoring state machine follows the spec thresholds.
(i) A game exits only at a state where one player has at least 4 points and
leads by at least 2, and from any such state it returns immediately without
consuming a draw (so games end exactly at those thresholds).  (ii) In a set
started at 0-0 — and `simOne` starts every set at 0-0 — the servers of the
regular games are `true, false, true, ...`: player 1 serves the first game of
every set and the server alternates strictly every game.  (iii) A set is won
with at least 6 games and a lead of at least 2, or with exactly 7 games.
(iv) `sets_to_win` is 2 for best-of-3 and 3 for best-of-5 (the ceil(best_of/2)
values), and the match loop stops exactly when the winner first reaches it,
the loser still being strictly below. -/
theorem match_state_machine (p q : Rat) (d : Draws) :
    (∀ (s : Bool) (fuel idx a b x y i : Nat),
        simGame p q s d fuel idx a b = some (x, y, i) →
        (x ≥ 4 ∧ x ≥ y + 2) ∨ (y ≥ 4 ∧ y ≥ x + 2)) ∧
    (∀ (s : Bool) (fuel idx a b : Nat),
        (a ≥ 4 ∧ a ≥ b + 2) ∨ (b ≥ 4 ∧ b ≥ a + 2) →
        simGame p q s d fuel idx a b = some (a, b, idx)) ∧
    (∀ (fuel idx : Nat) (w : Bool) (x y i : Nat) (L : List Bool)
        (tb : Option (Nat × Nat)),
        simSet p q d fuel idx 0 0 = some (w, x, y, i, L, tb) →
        L = (List.range L.length).map (fun k => (k % 2 == 0))) ∧
    (∀ (fuel idx g1 g2 : Nat) (w : Bool) (x y i : Nat) (L : List Bool)
        (tb : Option (Nat × Nat)),
        simSet p q d fuel idx g1 g2 = some (w, x, y, i, L, tb) →
        (w = true → (x ≥ 6 ∧ x ≥ y + 2) ∨ x = 7) ∧
        (w = false → (y ≥ 6 ∧ y ≥ x + 2) ∨ y = 7)) ∧
    (setsToWin 3 = 2 ∧ setsToWin 5 = 3) ∧
    (∀ (stw fuel idx : Nat) (w : Bool) (x y i : Nat),
        1 ≤ stw →
        simOne p q stw d fuel idx 0 0 = some (w, x, y, i) →
        ((x = stw ∧ y < stw) ∨ (y = stw ∧ x < stw)) ∧ w = (x == stw)) := by
  refine ⟨?_, ?_, ?_, ?_, ⟨rfl, rfl⟩, ?_⟩
  · intro s fuel idx a b x y i hh
    exact simGame_some_over p q s d fuel idx a b x y i hh
  · intro s fuel idx a b hcond
    exact simGame_immediate p q s d fuel idx a b hcond
  · intro fuel idx w x y i L tb hh
    have hL := simSet_servers p q d fuel idx 0 0 w x y i L tb hh
    rw [gamePat_eq_range] at hL
    simpa using hL
  · intro fuel idx g1 g2 w x y i L tb hh
    exact simSet_some_over p q d fuel idx g1 g2 w x y i L tb hh
  · intro stw fuel idx w x y i hstw hh
    exact simOne_char p q d stw fuel idx 0 0 w x y i (by omega) (by omega)
      (by omega) hh

/-- Claim C1 witness: a game at 4-0 returns immediately, and a concrete
best-of-3 playout (player 1 winning every point) exits with player 1 on
exactly 2 sets while player 2 has fewer. -/
theorem match_state_machine_witness :
    simGame 1 0 true dzero 10 5 4 0 = some (4, 0, 5) ∧
    ((((2 : Nat) = 2 ∧ 0 < 2) ∨ ((0 : Nat) = 2 ∧ 2 < 2)) ∧
      true = ((2 : Nat) == 2)) :=
  ⟨(match_state_machine 1 0 dzero).2.1 true 10 5 4 0 (Or.inl (by omega)),
   (match_state_machine 1 0 dzero).2.2.2.2.2 2 200 0 true 2 0 48 (by omega)
     (by with_unfolding_all rfl)⟩

/-- Claim C5 (amended): in the tie-break, the `server_is_p1` flag under which
each point's probability is sampled follows `tbPat`: it flips exactly after
points at which the cumulative point total is odd (player 1 serves point 1,
then the server changes every two points — not every point); a sampled win
credits the point to player 1 regardless of the server flag, a sampled loss
to player 2; the tie-break exits only when one player has at least 7
tie-break points with a margin of at least 2, and from such a state it
returns immediately; and winning the tie-break sets the winner's game count
for the set to 7, the loser keeping the 6 games of the 6-6 entry state. -/
theorem tiebreak_semantics (p q : Rat) (d : Draws) :
    (∀ (srv : Bool) (t1 t2 : Nat),
        tbCredit srv true t1 t2 = (t1 + 1, t2) ∧
        tbCredit srv false t1 t2 = (t1, t2 + 1)) ∧
    (∀ (fuel idx t1 t2 : Nat) (srv w : Bool) (x y i : Nat) (S : List Bool),
        simTB p q d fuel idx t1 t2 srv = some (w, x, y, i, S) →
        S = tbPat (t1 + t2) srv S.length) ∧
    (∀ (fuel idx t1 t2 : Nat) (srv w : Bool) (x y i : Nat) (S : List Bool),
        simTB p q d fuel idx t1 t2 srv = some (w, x, y, i, S) →
        (w = true → x ≥ 7 ∧ x ≥ y + 2) ∧ (w = false → y ≥ 7 ∧ y ≥ x + 2)) ∧
    (∀ (fuel idx t1 t2 : Nat) (srv : Bool),
        (t1 ≥ 7 ∧ t1 ≥ t2 + 2) ∨ (t2 ≥ 7 ∧ t2 ≥ t1 + 2) →
        ∃ w, simTB p q d fuel idx t1 t2 srv = some (w, t1, t2, idx, [])) ∧
    (∀ (fuel idx g1 g2 : Nat) (w : Bool) (x y i : Nat) (L : List Bool)
        (t1 t2 : Nat),
        simSet p q d fuel idx g1 g2 = some (w, x, y, i, L, some (t1, t2)) →
        (w = true ∧ x = 7 ∧ y = 6 ∧ t1 ≥ 7 ∧ t1 ≥ t2 + 2) ∨
        (w = false ∧ x = 6 ∧ y = 7 ∧ t2 ≥ 7 ∧ t2 ≥ t1 + 2)) := by
  refine ⟨?_, ?_, ?_, ?_, ?_⟩
  · intro srv t1 t2
    exact ⟨tbCredit_win srv t1 t2, tbCredit_lose srv t1 t2⟩
  · intro fuel idx t1 t2 srv w x y i S hh
    exact simTB_servers p q d fuel idx t1 t2 srv w x y i S hh
  · intro fuel idx t1 t2 srv w x y i S hh
    exact simTB_some_over p q d fuel idx t1 t2 srv w x y i S hh
  · intro fuel idx t1 t2 srv hcond
    exact simTB_immediate p q d fuel idx t1 t2 srv hcond
  · intro fuel idx g1 g2 w x y i L t1 t2 hh
    exact simSet_tb_assigns p q d fuel idx g1 g2 w x y i L t1 t2 hh

/-- Claim C5 (amended) witness: a concrete 7-point tie-break whose recorded
server flags equal the `tbPat` pattern. -/
theorem tiebreak_semantics_witness :
    [true, false, false, true, true, false, false] =
      tbPat (0 + 0) true [true, false, false, true, true, false, false].length :=
  (tiebreak_semantics 1 0 dzero).2.1 100 0 0 0 true true 7 0 7
    [true, false, false, true, true, false, false] (by with_unfolding_all rfl)

/-- Claim C5 counterexample: in a concrete tie-break the recorded server
flags are `[T, F, F, T, T, F, F]`: points 2 and 3 are both sampled with
`server_is_p1 = false`, so the server whose probability is sampled does NOT
alternate every point (the actual pattern is one point, then two points
each). -/
theorem tiebreak_alternation_cex :
    simTB 1 0 dzero 100 0 0 0 true =
      some (true, 7, 0, 7, [true, false, false, true, true, false, false]) ∧
    [true, false, false, true, true, false, false].get? 1 =
      [true, false, false, true, true, false, false].get? 2 :=
  ⟨by with_unfolding_all rfl, rfl⟩
